import Mathlib

set_option maxHeartbeats 1000000

/-!
Shallow embedding of the integrity-validation core of the ForensicFileAnalyzer
repository: `forensic_analyzer/validate.py` (inventory validation, sampled hash
re-verification, issue summarisation) and the extension-mismatch decision of
`forensic_analyzer/signature.py`.

Python dictionaries of row data are modelled as association lists of `Val`
(the dynamic values that occur in inventory rows), machine floats as rationals
plus an explicit NaN, the filesystem as a function `String → Option Int`
(path to `st_size`, `none` when `os.lstat` fails), and the optional hashing
collaborator `compute_file_hashes` as an `Option` of a function returning a
`HashOutcome`.  `random.sample` is modelled by an arbitrary sampler `pick`
constrained by `ValidPick` (it returns exactly `k` of the candidates, drawn
without replacement).  Fallible paths (`random.sample` raising `ValueError`)
are modelled with `Except`.
-/

/-- Python values as they appear in inventory row dictionaries. -/
inductive Val
  | vnone
  | vstr (s : String)
  | vint (i : Int)
  | vfloat (q : ℚ)
  | vnan
  | vbool (b : Bool)
deriving DecidableEq

/-- Result of Python `float(...)`: a finite value (modelled as a rational) or NaN.
Infinite float literals are not modelled. -/
inductive PyFloat
  | fnum (q : ℚ)
  | fnan
deriving DecidableEq

/-- A row is a Python dict with string keys: an association list with unique keys. -/
abbrev Row := List (String × Val)

/-- Python `r.get(k)`: first binding of the key, if present. -/
def rget (r : Row) (k : String) : Option Val :=
  (List.find? (fun e => e.1 == k) r).map (fun e => e.2)

/-- Python truthiness of a `Val` (`None`, `""`, `0`, `0.0`, `False` are falsy;
NaN is truthy). -/
def truthy : Val → Bool
  | Val.vnone => false
  | Val.vstr s => s != ""
  | Val.vint i => i != 0
  | Val.vfloat q => q != 0
  | Val.vnan => true
  | Val.vbool b => b

/-- Renders a finite Python float as `str` does for values produced in this code
(integral floats are shown with a trailing `.0`).  This approximates CPython's
shortest-round-trip repr; no claim depends on the non-integral case. -/
def renderFloat (q : ℚ) : String :=
  if q.den = 1 then toString q.num ++ ".0" else toString q

/-- Python `str(v)`. -/
def pyStr : Val → String
  | Val.vnone => "None"
  | Val.vstr s => s
  | Val.vint i => toString i
  | Val.vfloat q => renderFloat q
  | Val.vnan => "nan"
  | Val.vbool b => if b then "True" else "False"

/-- Python `int(...)` truncation toward zero of a finite float value. -/
def pyTrunc (q : ℚ) : ℤ :=
  if q < 0 then -(Int.floor (-q)) else Int.floor q

/-- `s` is an initial segment of `t` (on character lists). -/
def listStarts : List Char → List Char → Bool
  | [], _ => true
  | _ :: _, [] => false
  | c :: cs, d :: ds => c == d && listStarts cs ds

/-- `s` occurs contiguously inside `t` (on character lists). -/
def listHas : List Char → List Char → Bool
  | [], s => s.isEmpty
  | c :: rest, s => listStarts s (c :: rest) || listHas rest s

/-- The whitespace stripped by Python `str.strip()`. -/
def isPySpace (c : Char) : Bool :=
  c == ' ' || c == '\t' || c == '\n' || c == '\r' || c == '\x0b' || c == '\x0c'

/-- Python `s.strip()` (structural implementation on the character list). -/
def pyStrip (s : String) : String :=
  ⟨((s.data.dropWhile isPySpace).reverse.dropWhile isPySpace).reverse⟩

/-- Python `s.lower()` (structural implementation on the character list). -/
def pyLower (s : String) : String :=
  ⟨s.data.map Char.toLower⟩

/-- Python `s.startswith(pre)` (structural implementation). -/
def strStarts (s pre : String) : Bool :=
  listStarts pre.data s.data

/-- Python slicing `s[:n]` (structural implementation). -/
def pyTake (s : String) (n : ℕ) : String :=
  ⟨s.data.take n⟩

/-- Split a character list on `'.'`, as Python `s.split(".")`. -/
def splitDot : List Char → List (List Char)
  | [] => [[]]
  | c :: rest =>
    if c == '.' then [] :: splitDot rest
    else
      match splitDot rest with
      | [] => [[c]]
      | seg :: segs => (c :: seg) :: segs

/-- Value of a digit string. -/
def digitsToNat (l : List Char) : ℕ :=
  l.foldl (fun n c => n * 10 + (c.toNat - Char.toNat '0')) 0

/-- Integer literal parsing: an optional minus sign followed by digits
(Python's `int(...)` additionally accepts a `+` sign and underscores, which are
not modelled). -/
def chrsToInt? : List Char → Option Int
  | [] => none
  | c :: rest =>
    if c == '-' then
      if !rest.isEmpty && rest.all Char.isDigit then some (-(digitsToNat rest : ℤ)) else none
    else if (c :: rest).all Char.isDigit then some ((digitsToNat (c :: rest) : ℤ)) else none

/-- Parses the decimal literals accepted by Python `float(...)` in the forms
`[-]digits`, `[-]digits.digits`, `[-].digits`, `[-]digits.` (exponents, `inf`
and explicit `+` signs are not modelled).  `mkRat i (10 ^ k)` is the exact
rational `i / 10 ^ k`. -/
def parseDecimal (t : String) : Option ℚ :=
  match splitDot t.data with
  | [a] => (chrsToInt? a).map (fun i => (i : ℚ))
  | [a, b] => (chrsToInt? (a ++ b)).map (fun i => mkRat i (10 ^ b.length))
  | _ => none

/-- `_to_float_safely` from validate.py: Python `float(v)`, `None` on
`TypeError`/`ValueError`. -/
def to_float_safely : Val → Option PyFloat
  | Val.vnone => none
  | Val.vint i => some (PyFloat.fnum (i : ℚ))
  | Val.vfloat q => some (PyFloat.fnum q)
  | Val.vnan => some PyFloat.fnan
  | Val.vbool b => some (PyFloat.fnum (if b then 1 else 0))
  | Val.vstr s =>
    let t := pyStrip s
    if pyLower t == "nan" then some PyFloat.fnan
    else (parseDecimal t).map PyFloat.fnum

/-- `_to_int_safely` from validate.py: Python `int(v)`, `None` on
`TypeError`/`ValueError` (floats truncate toward zero; `int(nan)` raises). -/
def to_int_safely : Val → Option Int
  | Val.vnone => none
  | Val.vint i => some i
  | Val.vfloat q => some (pyTrunc q)
  | Val.vnan => none
  | Val.vbool b => some (if b then 1 else 0)
  | Val.vstr s => chrsToInt? (pyStrip s).data

/-- One detected anomaly, as the `Issue` dataclass of validate.py. -/
structure Issue where
  path : String
  code : String
  severity : String
  detail : String
  field : String
  value : String
deriving DecidableEq

/-- The membership test `f not in r or r.get(f) in (None, "")` used by
validate.py for required fields and timestamps. -/
def missing_val (o : Option Val) : Bool :=
  match o with
  | none => true
  | some v => v == Val.vnone || v == Val.vstr ""

/-- `str(r.get("path", ""))`. -/
def pathOf (r : Row) : String :=
  pyStr ((rget r "path").getD (Val.vstr ""))

/-- Required-field loop body of validate.py (section 1), per row. -/
def rowRequiredIssues (r : Row) : List String → List Issue
  | [] => []
  | f :: rest =>
    (if missing_val (rget r f) then
      [⟨pathOf r, "MISSING_FIELD", "ERROR", "필수 필드 누락", f, ""⟩]
     else [])
      ++ rowRequiredIssues r rest

/-- Section 1 of validate.py: required fields. -/
def requiredIssues (required : List String) : List Row → List Issue
  | [] => []
  | r :: rest => rowRequiredIssues r required ++ requiredIssues required rest

/-- Existence/size loop body of validate.py (section 2), per row.  `fs` models
`os.lstat`: `some size` on success, `none` when the stat raises. -/
def rowExistSizeIssues (cfe csm : Bool) (fs : String → Option Int) (r : Row) : List Issue :=
  let p := pathOf r
  if p == "" then []
  else
    match fs p with
    | none =>
      if cfe then [⟨p, "FILE_NOT_FOUND", "ERROR", "파일에 접근 불가 또는 존재하지 않음", "", ""⟩] else []
    | some stSize =>
      if csm then
        match to_int_safely ((rget r "size_bytes").getD Val.vnone) with
        | none => [⟨p, "SIZE_MISSING", "ERROR", "size_bytes 누락/비정상", "size_bytes", ""⟩]
        | some invSize =>
          if stSize != invSize then
            [⟨p, "SIZE_MISMATCH", "WARN",
              "실제(" ++ toString stSize ++ ") ≠ 기록(" ++ toString invSize ++ ")",
              "size_bytes", toString invSize⟩]
          else []
      else []

/-- Loop of section 2 over the rows. -/
def existSizeLoop (cfe csm : Bool) (fs : String → Option Int) : List Row → List Issue
  | [] => []
  | r :: rest => rowExistSizeIssues cfe csm fs r ++ existSizeLoop cfe csm fs rest

/-- Section 2 of validate.py: file existence and size match, guarded by
`check_file_exists or check_size_matches`. -/
def existSizeIssues (cfe csm : Bool) (fs : String → Option Int) (rows : List Row) : List Issue :=
  if cfe || csm then existSizeLoop cfe csm fs rows else []

/-- The `time_fields` list of validate.py (birthtime only in strict mode). -/
def time_fields (allowMB : Bool) : List String :=
  ["mtime_epoch", "atime_epoch", "ctime_epoch"] ++ (if allowMB then [] else ["birthtime_epoch"])

/-- Timestamp loop body of validate.py (section 3), per row, over the field list. -/
def rowTsIssues (emin : ℚ) (r : Row) : List String → List Issue
  | [] => []
  | tf :: rest =>
    (if missing_val (rget r tf) then
      [⟨pathOf r, "TS_MISSING", "WARN", "타임스탬프 누락", tf, ""⟩]
     else
      match to_float_safely ((rget r tf).getD Val.vnone) with
      | none =>
        [⟨pathOf r, "TS_BAD_TYPE", "WARN", "타임스탬프 값이 숫자가 아님", tf,
          pyStr ((rget r tf).getD Val.vnone)⟩]
      | some PyFloat.fnan =>
        [⟨pathOf r, "TS_BAD_TYPE", "WARN", "타임스탬프 값이 숫자가 아님", tf,
          pyStr ((rget r tf).getD Val.vnone)⟩]
      | some (PyFloat.fnum q) =>
        if q < emin then
          [⟨pathOf r, "TS_OUT_OF_RANGE", "WARN", "비정상(epoch<" ++ renderFloat emin ++ ")", tf,
            renderFloat q⟩]
        else [])
      ++ rowTsIssues emin r rest

/-- Section 3 of validate.py: timestamp validation over all rows. -/
def tsIssues (emin : ℚ) (allowMB : Bool) : List Row → List Issue
  | [] => []
  | r :: rest => rowTsIssues emin r (time_fields allowMB) ++ tsIssues emin allowMB rest

/-- `seen[p] = seen.get(p, 0) + 1` on an insertion-ordered association list
(the model of a Python dict). -/
def bumpTally : List (String × Nat) → String → List (String × Nat)
  | [], p => [(p, 1)]
  | (q, c) :: rest, p => if q == p then (q, c + 1) :: rest else (q, c) :: bumpTally rest p

/-- The `seen` tally loop of section 4 of validate.py. -/
def tallyPaths (acc : List (String × Nat)) : List Row → List (String × Nat)
  | [] => acc
  | r :: rest =>
    let p := pathOf r
    tallyPaths (if p == "" then acc else bumpTally acc p) rest

/-- Emission loop of section 4: one DUP_PATH issue per tallied path with count > 1. -/
def dupIssuesOf : List (String × Nat) → List Issue
  | [] => []
  | (p, c) :: rest =>
    (if 1 < c then [⟨p, "DUP_PATH", "WARN", "중복 path " ++ toString c ++ "개", "", ""⟩] else [])
      ++ dupIssuesOf rest

/-- Section 4 of validate.py: duplicate-path detection. -/
def dupIssues (dd : Bool) (rows : List Row) : List Issue :=
  if dd then dupIssuesOf (tallyPaths [] rows) else []

/-- Section 5 of validate.py: `isinstance(ext_mismatch, bool) and ext_mismatch`. -/
def rowExtIssue (r : Row) : List Issue :=
  match rget r "ext_mismatch" with
  | some (Val.vbool true) =>
    [⟨pathOf r, "EXT_MISMATCH", "INFO", "확장자와 시그니처 불일치", "ext_mismatch", "True"⟩]
  | _ => []

/-- Loop of section 5 over the rows. -/
def extIssues : List Row → List Issue
  | [] => []
  | r :: rest => rowExtIssue r ++ extIssues rest

/-- `validate_inventory_rows` of validate.py: the five sections in pipeline order. -/
def validate_inventory_rows (fs : String → Option Int) (rows : List Row)
    (required : List String) (cfe csm : Bool) (emin : ℚ) (allowMB dd : Bool) : List Issue :=
  requiredIssues required rows
    ++ existSizeIssues cfe csm fs rows
    ++ tsIssues emin allowMB rows
    ++ dupIssues dd rows
    ++ extIssues rows

/-- The default `required_fields` tuple of validate.py. -/
def default_required : List String :=
  ["path", "name", "parent", "size_bytes", "mtime_epoch", "atime_epoch", "ctime_epoch"]

/-- The `_KNOWN_EXT_NORMALIZE` table of signature.py. -/
def known_ext_normalize (e : String) : String :=
  if e == ".jpe" then ".jpg"
  else if e == ".jpeg" then ".jpg"
  else if e == ".tif" then ".tiff"
  else if e == ".htm" then ".html"
  else e

/-- `_normalize_ext` of signature.py: `(ext or "").strip().lower()`, a leading
dot added when absent, then the known-extension table. -/
def normalize_ext (ext : String) : String :=
  let e := pyLower (pyStrip ext)
  if e == "" then ""
  else known_ext_normalize (if strStarts e "." then e else "." ++ e)

/-- `_is_ext_mismatch` of signature.py (the MIME argument is accepted but not
used by the decision, exactly as in the source). -/
def is_ext_mismatch (disk_ext real_ext _rmime : String) : Bool :=
  let d := normalize_ext disk_ext
  let r := normalize_ext real_ext
  if d == "" && r == "" then false
  else if d != "" && r == "" then false
  else d != r

/-- `summary[k] = summary.get(k, 0) + 1` on the lookup-function model of a dict. -/
def bumpCount (f : String → Nat) (k : String) : String → Nat :=
  fun x => if x == k then f k + 1 else f x

/-- `summarize_issues` of validate.py; the returned dict is modelled by its
lookup function (absent key ↦ 0). -/
def summarize_issues (issues : List Issue) : String → Nat :=
  issues.foldl (fun acc i => bumpCount (bumpCount acc i.severity) i.code) (fun _ => 0)

/-- Outcome of one `compute_file_hashes` call: `ValueError` (unsupported
algorithm), `None` (unreadable file), or a dict of hex digests. -/
inductive HashOutcome
  | herr (e : String)
  | hunreadable
  | hok (digests : List (String × String))

/-- The hashing collaborator, as a function from a path. -/
abbrev HashFn := String → HashOutcome

/-- Lookup in a string-valued dict (`result.get(algo, default)` without the default). -/
def sget (d : List (String × String)) (k : String) : Option String :=
  (List.find? (fun e => e.1 == k) d).map (fun e => e.2)

/-- `str(r.get(algo, missing_as) or missing_as)` from sample_verify_hashes. -/
def expected_of (r : Row) (algo missing_as : String) : String :=
  let v := (rget r algo).getD (Val.vstr missing_as)
  if truthy v then pyStr v else missing_as

/-- `result.get(algo, missing_as) or missing_as` from sample_verify_hashes. -/
def actual_of (digests : List (String × String)) (algo missing_as : String) : String :=
  let s0 := (sget digests algo).getD missing_as
  if s0 != "" then s0 else missing_as

/-- Body of the per-algorithm loop of sample_verify_hashes. -/
def checkAlgo (p : String) (r : Row) (digests : List (String × String))
    (algo missing_as : String) : List Issue :=
  let expected := expected_of r algo missing_as
  let actual := actual_of digests algo missing_as
  if expected == "" then
    [⟨p, "HASH_EXPECTED_MISSING", "WARN", algo ++ " 값 누락", algo, ""⟩]
  else if actual == "" then
    [⟨p, "HASH_ACTUAL_MISSING", "WARN", algo ++ " 재계산 실패", algo, ""⟩]
  else if pyLower expected != pyLower actual then
    [⟨p, "HASH_VERIFY_FAIL", "ERROR",
      algo ++ " 불일치: expected=" ++ pyTake expected 12 ++ "… actual=" ++ pyTake actual 12 ++ "…",
      algo, expected⟩]
  else []

/-- The per-algorithm loop of sample_verify_hashes over the algorithm list. -/
def checkAlgos (p : String) (r : Row) (digests : List (String × String))
    (missing_as : String) : List String → List Issue
  | [] => []
  | a :: rest => checkAlgo p r digests a missing_as ++ checkAlgos p r digests missing_as rest

/-- The per-record body of sample_verify_hashes: one `compute_file_hashes` call
and its three outcomes. -/
def verifyRecord (h : HashFn) (algos : List String) (missing_as : String) (r : Row) : List Issue :=
  let p := pyStr ((rget r "path").getD Val.vnone)
  match h p with
  | HashOutcome.herr e => [⟨p, "HASH_VERIFY_ERROR", "ERROR", "해시 계산 실패: " ++ e, "", ""⟩]
  | HashOutcome.hunreadable => [⟨p, "HASH_VERIFY_READ_FAIL", "WARN", "파일 읽기 실패(권한/손상 등)", "", ""⟩]
  | HashOutcome.hok digests => checkAlgos p r digests missing_as algos

/-- The `for r in sample` loop of sample_verify_hashes. -/
def processSample (h : HashFn) (algos : List String) (missing_as : String) : List Row → List Issue
  | [] => []
  | r :: rest => verifyRecord h algos missing_as r ++ processSample h algos missing_as rest

/-- `candidates = [r for r in rows if r.get("path")]`. -/
def candidates_of (rows : List Row) : List Row :=
  rows.filter (fun r => truthy ((rget r "path").getD Val.vnone))

/-- `k = min(max(int(n * sample_ratio), sample_min), sample_max)` from
sample_verify_hashes (`int` truncates toward zero). -/
def sample_size (n : ℕ) (frac : ℚ) (mn mx : ℤ) : ℤ :=
  min (max (pyTrunc ((n : ℚ) * frac)) mn) mx

/-- Modelled from the spec: the spec's sampling formula
`k = clamp(round(n × ratio), min, max)`, with `round` the usual rounding of the
exact rational product.  Kept separate from `sample_size` (the code's formula)
for comparison. -/
def spec_sample_size (n : ℕ) (frac : ℚ) (mn mx : ℤ) : ℤ :=
  min (max (round ((n : ℚ) * frac)) mn) mx

/-- `sample = random.sample(candidates, k) if n > k else candidates`, with
`random.sample` raising `ValueError` on a negative `k`. -/
def selectSample (pick : List Row → ℕ → List Row) (cands : List Row)
    (frac : ℚ) (mn mx : ℤ) : Except String (List Row) :=
  let n := cands.length
  let k := sample_size n frac mn mx
  if (n : ℤ) > k then
    if k < 0 then Except.error "ValueError: sample size negative"
    else Except.ok (pick cands k.toNat)
  else Except.ok cands

/-- The single scan-wide issue emitted when `compute_file_hashes` is unavailable. -/
def skippedIssue : Issue :=
  ⟨"", "HASH_VERIFY_SKIPPED", "INFO", "compute_file_hashes 사용 불가(모듈 import 실패)", "", ""⟩

/-- `sample_verify_hashes` of validate.py.  `hasher = none` models the failed
module import; `pick` models `random.sample` (see `ValidPick`). -/
def sample_verify_hashes (hasher : Option HashFn) (pick : List Row → ℕ → List Row)
    (rows : List Row) (algos : List String) (frac : ℚ) (mn mx : ℤ) (missing_as : String) :
    Except String (List Issue) :=
  match hasher with
  | none => Except.ok [skippedIssue]
  | some h =>
    let cands := candidates_of rows
    if cands.length == 0 then Except.ok []
    else
      match selectSample pick cands frac mn mx with
      | Except.error e => Except.error e
      | Except.ok sample => Except.ok (processSample h algos missing_as sample)

/-- What `random.sample(l, k)` guarantees for `k ≤ len(l)`: exactly `k`
elements, drawn from `l` without replacement (a sub-permutation).  The
uniformity of the distribution is not modelled. -/
def ValidPick (pick : List Row → ℕ → List Row) : Prop :=
  ∀ l k, k ≤ l.length → (pick l k).length = k ∧ (pick l k).Subperm l

/-- A concrete sampler satisfying `ValidPick`: take the first `k` candidates. -/
def takePick : List Row → ℕ → List Row := fun l k => l.take k

/-- The record condition under which the timestamp range check of validate.py
fires for a field: present, coercible to a finite float, and strictly below the
minimum. -/
def ts_out_of_range (emin : ℚ) (r : Row) (tf : String) : Bool :=
  if missing_val (rget r tf) then false
  else
    match to_float_safely ((rget r tf).getD Val.vnone) with
    | some (PyFloat.fnum q) => decide (q < emin)
    | _ => false

/-- `t` occurs as a contiguous substring of `s`. -/
def strContains (s t : String) : Prop := ∃ a b, s = a ++ t ++ b

/-- The fixed severity each issue code carries in validate.py. -/
def sev_of (c : String) : String :=
  if c ∈ (["MISSING_FIELD", "FILE_NOT_FOUND", "SIZE_MISSING",
           "HASH_VERIFY_ERROR", "HASH_VERIFY_FAIL"] : List String) then "ERROR"
  else if c ∈ (["SIZE_MISMATCH", "TS_MISSING", "TS_BAD_TYPE", "TS_OUT_OF_RANGE", "DUP_PATH",
                "HASH_VERIFY_READ_FAIL", "HASH_EXPECTED_MISSING", "HASH_ACTUAL_MISSING"] : List String) then "WARN"
  else if c ∈ (["EXT_MISMATCH", "HASH_VERIFY_SKIPPED"] : List String) then "INFO"
  else ""

/-- `seen.get(p, 0)` on the tally model. -/
def lookupTally (acc : List (String × Nat)) (p : String) : Nat :=
  ((acc.find? (fun e => e.1 == p)).map (fun e => e.2)).getD 0

/-- The keys of a tally, in insertion order. -/
def tallyKeys (acc : List (String × Nat)) : List String :=
  acc.map (fun e => e.1)

/-- Formalisation of "the detail `s` contains a distinguishing prefix of the
expected digest `e`": some initial segment of `e` that is not an initial
segment of the actual digest `a` occurs in `s`. -/
def distinguishingIn (s e a : String) : Prop :=
  ∃ pe ∈ e.toList.inits, listStarts pe a.toList = false ∧ listHas s.toList pe = true

/-! ## Sampling: selection size and branch structure -/

theorem takePick_valid : ValidPick takePick := by
  intro l k hk
  constructor
  · simp [takePick, List.length_take]
    omega
  · exact (List.take_sublist k l).subperm

theorem sample_size_lb (n : ℕ) (frac : ℚ) (mn mx : ℤ) (h : mn ≤ mx) :
    mn ≤ sample_size n frac mn mx :=
  le_min (le_max_right _ _) h

theorem sample_size_ub (n : ℕ) (frac : ℚ) (mn mx : ℤ) :
    sample_size n frac mn mx ≤ mx :=
  min_le_right _ _

theorem selectSample_cases (pick : List Row → ℕ → List Row) (hpick : ValidPick pick)
    (cands : List Row) (frac : ℚ) (mn mx : ℤ) (s : List Row)
    (hs : selectSample pick cands frac mn mx = Except.ok s) :
    (((cands.length : ℤ) ≤ sample_size cands.length frac mn mx ∧ s = cands)
      ∨ (sample_size cands.length frac mn mx < (cands.length : ℤ)
          ∧ 0 ≤ sample_size cands.length frac mn mx
          ∧ (s.length : ℤ) = sample_size cands.length frac mn mx
          ∧ s.Subperm cands)) := by
  unfold selectSample at hs
  by_cases h : (cands.length : ℤ) > sample_size cands.length frac mn mx
  · rw [if_pos h] at hs
    by_cases h0 : sample_size cands.length frac mn mx < 0
    · rw [if_pos h0] at hs
      exact absurd hs (by simp)
    · rw [if_neg h0] at hs
      have hk : (sample_size cands.length frac mn mx).toNat ≤ cands.length := by omega
      have hp := hpick cands (sample_size cands.length frac mn mx).toNat hk
      right
      refine ⟨h, by omega, ?_, ?_⟩
      · have := hp.1
        have hinj : s = pick cands (sample_size cands.length frac mn mx).toNat := by
          exact (Except.ok.injEq _ _).mp hs.symm
        rw [hinj, this]
        omega
      · have hinj : s = pick cands (sample_size cands.length frac mn mx).toNat := by
          exact (Except.ok.injEq _ _).mp hs.symm
        rw [hinj]
        exact hp.2
  · rw [if_neg h] at hs
    left
    exact ⟨by omega, ((Except.ok.injEq _ _).mp hs.symm).symm ▸ rfl⟩

theorem sample_verify_unfold (h : HashFn) (pick : List Row → ℕ → List Row)
    (rows : List Row) (algos : List String) (frac : ℚ) (mn mx : ℤ) (m : String) (s : List Row)
    (hs : selectSample pick (candidates_of rows) frac mn mx = Except.ok s) :
    sample_verify_hashes (some h) pick rows algos frac mn mx m
      = Except.ok (processSample h algos m s) := by
  unfold sample_verify_hashes
  by_cases h0 : (candidates_of rows).length = 0
  · have hnil : candidates_of rows = [] := List.length_eq_zero.mp h0
    rw [hnil] at hs
    unfold selectSample at hs
    simp only [List.length_nil, Nat.cast_zero] at hs
    have hks : s = [] := by
      split at hs
      · exact absurd hs (by simp)
      · exact (Except.ok.inj hs).symm
    rw [hks]
    simp [hnil, processSample]
  · have : ((candidates_of rows).length == 0) = false := by
      simp [h0]
    simp only [this, Bool.false_eq_true, if_false]
    rw [hs]

theorem candidates_one :
    candidates_of [[("path", Val.vstr "a")]] = [[("path", Val.vstr "a")]] := by decide

theorem sample_size_one_default : sample_size 1 (1 / 20) 5 200 = 5 := by
  have h2 : pyTrunc (((1 : ℕ) : ℚ) * (1 / 20)) = 0 := by
    rw [show (((1 : ℕ) : ℚ) * (1 / 20)) = 1 / 20 by norm_num]
    unfold pyTrunc
    rw [if_neg (by norm_num), Int.floor_eq_iff]
    norm_num
  unfold sample_size
  rw [h2]
  decide

theorem selectSample_one_default :
    selectSample takePick (candidates_of [[("path", Val.vstr "a")]]) (1 / 20) 5 200
      = Except.ok [[("path", Val.vstr "a")]] := by
  rw [candidates_one]
  simp only [selectSample, List.length_singleton, sample_size_one_default]
  norm_num

/-- C1 (amended): with the hashing collaborator available, nonnegative bounds
`0 ≤ sample_min ≤ sample_max`, and a nonempty candidate set (records with a
truthy path), sample_verify_hashes computes the target sample count as
`k = clamp(trunc(n × ratio), sample_min, sample_max)` — `trunc` being Python's
`int(...)` truncation toward zero, not the spec's `round` — and then, if
`n ≤ k`, verifies the entire candidate set, and otherwise verifies exactly `k`
records drawn without replacement from the candidates.  Uniformity of the
random draw is a property of `random.sample` and is not modelled. -/
theorem sample_verify_sample_count (h : HashFn) (pick : List Row → ℕ → List Row)
    (rows : List Row) (algos : List String) (frac : ℚ) (mn mx : ℤ) (m : String)
    (hpick : ValidPick pick) (hmn0 : 0 ≤ mn) (hmn : mn ≤ mx)
    (hne : candidates_of rows ≠ []) :
    ∃ s, selectSample pick (candidates_of rows) frac mn mx = Except.ok s
      ∧ sample_verify_hashes (some h) pick rows algos frac mn mx m
          = Except.ok (processSample h algos m s)
      ∧ sample_size (candidates_of rows).length frac mn mx
          = min (max (pyTrunc (((candidates_of rows).length : ℚ) * frac)) mn) mx
      ∧ (((candidates_of rows).length : ℤ) ≤ sample_size (candidates_of rows).length frac mn mx
          → s = candidates_of rows)
      ∧ (sample_size (candidates_of rows).length frac mn mx < ((candidates_of rows).length : ℤ)
          → (s.length : ℤ) = sample_size (candidates_of rows).length frac mn mx
            ∧ s.Subperm (candidates_of rows)) := by
  have hk0 : 0 ≤ sample_size (candidates_of rows).length frac mn mx :=
    le_trans hmn0 (sample_size_lb _ _ _ _ hmn)
  obtain ⟨s, hs⟩ : ∃ s, selectSample pick (candidates_of rows) frac mn mx = Except.ok s := by
    by_cases hgt : ((candidates_of rows).length : ℤ)
        > sample_size (candidates_of rows).length frac mn mx
    · refine ⟨pick (candidates_of rows)
        (sample_size (candidates_of rows).length frac mn mx).toNat, ?_⟩
      simp only [selectSample]
      rw [if_pos hgt, if_neg (not_lt.mpr hk0)]
    · exact ⟨candidates_of rows, by simp only [selectSample]; rw [if_neg hgt]⟩
  refine ⟨s, hs, sample_verify_unfold h pick rows algos frac mn mx m s hs, rfl, ?_, ?_⟩
  · intro hle
    rcases selectSample_cases pick hpick _ frac mn mx s hs with ⟨_, rfl⟩ | ⟨hlt, _, _, _⟩
    · rfl
    · omega
  · intro hlt
    rcases selectSample_cases pick hpick _ frac mn mx s hs with ⟨hle, rfl⟩ | ⟨_, _, hlen, hsub⟩
    · omega
    · exact ⟨hlen, hsub⟩

/-- C1 witness: a one-record batch with default bounds; the whole candidate
set is verified since n = 1 ≤ k = 5. -/
theorem sample_verify_sample_count_witness :
    ∃ s, selectSample takePick (candidates_of [[("path", Val.vstr "a")]]) (1/20) 5 200
          = Except.ok s
      ∧ sample_verify_hashes (some (fun _ => HashOutcome.hok [])) takePick
          [[("path", Val.vstr "a")]] [] (1/20) 5 200 ""
          = Except.ok (processSample (fun _ => HashOutcome.hok []) [] "" s)
      ∧ sample_size (candidates_of [[("path", Val.vstr "a")]]).length (1/20) 5 200
          = min (max (pyTrunc (((candidates_of [[("path", Val.vstr "a")]]).length : ℚ) * (1/20))) 5) 200
      ∧ (((candidates_of [[("path", Val.vstr "a")]]).length : ℤ)
            ≤ sample_size (candidates_of [[("path", Val.vstr "a")]]).length (1/20) 5 200
          → s = candidates_of [[("path", Val.vstr "a")]])
      ∧ (sample_size (candidates_of [[("path", Val.vstr "a")]]).length (1/20) 5 200
            < ((candidates_of [[("path", Val.vstr "a")]]).length : ℤ)
          → (s.length : ℤ) = sample_size (candidates_of [[("path", Val.vstr "a")]]).length (1/20) 5 200
            ∧ s.Subperm (candidates_of [[("path", Val.vstr "a")]])) :=
  sample_verify_sample_count (fun _ => HashOutcome.hok []) takePick
    [[("path", Val.vstr "a")]] [] (1/20) 5 200 ""
    takePick_valid (by decide) (by decide) (by decide)

/-- C1 counterexample: at n = 110 candidates with the default ratio 0.05 and
bounds [5, 200], the code's sample count is `int(110 × 0.05) = int(5.5) = 5`,
while the claimed `clamp(round(n × ratio), min, max)` is 6. -/
theorem sample_size_ne_spec_round :
    sample_size 110 (1 / 20) 5 200 = 5
    ∧ spec_sample_size 110 (1 / 20) 5 200 = 6
    ∧ sample_size 110 (1 / 20) 5 200 ≠ spec_sample_size 110 (1 / 20) 5 200 := by
  have h1 : (((110 : ℕ) : ℚ) * (1 / 20)) = 11 / 2 := by norm_num
  have h2 : pyTrunc (((110 : ℕ) : ℚ) * (1 / 20)) = 5 := by
    rw [h1]
    unfold pyTrunc
    rw [if_neg (by norm_num), Int.floor_eq_iff]
    norm_num
  have h3 : round (((110 : ℕ) : ℚ) * (1 / 20)) = 6 := by
    rw [h1, round_eq, show ((11 : ℚ) / 2 + 1 / 2) = ((6 : ℤ) : ℚ) by norm_num,
      Int.floor_intCast]
  have ha : sample_size 110 (1 / 20) 5 200 = 5 := by
    unfold sample_size
    rw [h2]
    decide
  have hb : spec_sample_size 110 (1 / 20) 5 200 = 6 := by
    unfold spec_sample_size
    rw [h3]
    decide
  refine ⟨ha, hb, by rw [ha, hb]; decide⟩

/-- C5 (confirmed): for every completed call of sample_verify_hashes with the
collaborator available and `sample_min ≤ sample_max`, the number of records
actually verified (the length of the processed sample `s`) satisfies
`min(n, min_bound) ≤ |s| ≤ max(min(n, min_bound), min(n, max_bound))` and
`|s| ≤ n`, where n is the number of records carrying a truthy path. -/
theorem sample_count_bounds (h : HashFn) (pick : List Row → ℕ → List Row)
    (rows : List Row) (algos : List String) (frac : ℚ) (mn mx : ℤ) (m : String) (s : List Row)
    (hpick : ValidPick pick) (hmn : mn ≤ mx)
    (hs : selectSample pick (candidates_of rows) frac mn mx = Except.ok s) :
    sample_verify_hashes (some h) pick rows algos frac mn mx m
      = Except.ok (processSample h algos m s)
    ∧ min ((candidates_of rows).length : ℤ) mn ≤ (s.length : ℤ)
    ∧ (s.length : ℤ) ≤ max (min ((candidates_of rows).length : ℤ) mn)
        (min ((candidates_of rows).length : ℤ) mx)
    ∧ s.length ≤ (candidates_of rows).length := by
  have h1 := sample_size_lb (candidates_of rows).length frac mn mx hmn
  have h2 := sample_size_ub (candidates_of rows).length frac mn mx
  refine ⟨sample_verify_unfold h pick rows algos frac mn mx m s hs, ?_⟩
  rcases selectSample_cases pick hpick _ frac mn mx s hs with ⟨hle, rfl⟩ | ⟨hlt, hk0, hlen, hsub⟩
  · refine ⟨?_, ?_, le_refl _⟩ <;> omega
  · have hslen : s.length ≤ (candidates_of rows).length := hsub.length_le
    refine ⟨?_, ?_, hslen⟩ <;> omega

/-- C5 witness: the same one-record batch; 1 = min(1,5) ≤ 1 ≤ max(min(1,5),min(1,200)) = 1. -/
theorem sample_count_bounds_witness :
    sample_verify_hashes (some (fun _ => HashOutcome.hok [])) takePick
        [[("path", Val.vstr "a")]] [] (1/20) 5 200 ""
      = Except.ok (processSample (fun _ => HashOutcome.hok []) [] "" [[("path", Val.vstr "a")]])
    ∧ min ((candidates_of [[("path", Val.vstr "a")]]).length : ℤ) 5
        ≤ (([[("path", Val.vstr "a")]] : List Row).length : ℤ)
    ∧ (([[("path", Val.vstr "a")]] : List Row).length : ℤ)
        ≤ max (min ((candidates_of [[("path", Val.vstr "a")]]).length : ℤ) 5)
            (min ((candidates_of [[("path", Val.vstr "a")]]).length : ℤ) 200)
    ∧ ([[("path", Val.vstr "a")]] : List Row).length ≤ (candidates_of [[("path", Val.vstr "a")]]).length :=
  sample_count_bounds (fun _ => HashOutcome.hok []) takePick
    [[("path", Val.vstr "a")]] [] (1 / 20) 5 200 "" [[("path", Val.vstr "a")]]
    takePick_valid (by decide) selectSample_one_default

/-- C7 (confirmed): when the hashing collaborator is unavailable,
sample_verify_hashes returns exactly one scan-wide issue — code
HASH_VERIFY_SKIPPED, severity INFO, empty path — for every batch and
configuration, performing no sampling or verification. -/
theorem hash_unavailable_single_skip (pick : List Row → ℕ → List Row)
    (rows : List Row) (algos : List String) (frac : ℚ) (mn mx : ℤ) (m : String) :
    sample_verify_hashes none pick rows algos frac mn mx m = Except.ok [skippedIssue]
    ∧ skippedIssue.path = ""
    ∧ skippedIssue.code = "HASH_VERIFY_SKIPPED"
    ∧ skippedIssue.severity = "INFO" :=
  ⟨rfl, rfl, rfl, rfl⟩

/-- C8 (amended): the extension-mismatch decision never flags when the
signature-derived extension normalises to empty (in particular when the disk
extension is present but the signature extension is unknown, and when both are
empty); a mismatch is reported exactly when the signature extension is
non-empty and the two normalised extensions differ — which includes the case
of an empty disk extension with a non-empty signature extension. -/
theorem is_ext_mismatch_eq (d r m : String) :
    is_ext_mismatch d r m
      = (!(normalize_ext r == "") && !(normalize_ext d == normalize_ext r)) := by
  unfold is_ext_mismatch
  by_cases hd : normalize_ext d = "" <;> by_cases hr : normalize_ext r = "" <;>
    simp [hd, hr] <;>
    rw [beq_eq_false_iff_ne.mpr hr] <;> simp [bne]

theorem ext_mismatch_asymmetric (d r m : String) :
    (normalize_ext r = "" → is_ext_mismatch d r m = false)
    ∧ (is_ext_mismatch d r m = true
        ↔ normalize_ext r ≠ "" ∧ normalize_ext d ≠ normalize_ext r) := by
  rw [is_ext_mismatch_eq]
  constructor
  · intro hr
    simp [hr]
  · simp

/-- C8 counterexample: with an empty disk extension and signature extension
".jpg", the code reports a mismatch, refuting the claim that a mismatch is
reported only when both extensions are non-empty. -/
theorem ext_mismatch_empty_disk_cex :
    is_ext_mismatch "" ".jpg" "image/jpeg" = true ∧ normalize_ext "" = "" := by
  refine ⟨?_, ?_⟩ <;> decide

/-- C8 witness: concrete instances of both conjuncts. -/
theorem ext_mismatch_asymmetric_witness :
    is_ext_mismatch ".txt" "" "text/plain" = false
    ∧ (is_ext_mismatch ".gif" ".jpg" "image/jpeg" = true
        ↔ normalize_ext ".jpg" ≠ "" ∧ normalize_ext ".gif" ≠ normalize_ext ".jpg") :=
  ⟨(ext_mismatch_asymmetric ".txt" "" "text/plain").1 (by decide),
   (ext_mismatch_asymmetric ".gif" ".jpg" "image/jpeg").2⟩

/-! ## Code/severity inventory of each validator section -/

theorem rowRequiredIssues_pairs (r : Row) (i : Issue) (fl : List String)
    (h : i ∈ rowRequiredIssues r fl) :
    (i.code, i.severity) ∈ ([("MISSING_FIELD", "ERROR")] : List (String × String)) := by
  induction fl with
  | nil => simp [rowRequiredIssues] at h
  | cons f rest ih =>
    simp only [rowRequiredIssues, List.mem_append] at h
    rcases h with h | h
    · cases hm : missing_val (rget r f) <;> simp_all
    · exact ih h

theorem requiredIssues_pairs (req : List String) (rows : List Row) (i : Issue)
    (h : i ∈ requiredIssues req rows) :
    (i.code, i.severity) ∈ ([("MISSING_FIELD", "ERROR")] : List (String × String)) := by
  induction rows with
  | nil => simp [requiredIssues] at h
  | cons r rest ih =>
    simp only [requiredIssues, List.mem_append] at h
    rcases h with h | h
    · exact rowRequiredIssues_pairs r i req h
    · exact ih h

theorem rowExistSizeIssues_pairs (cfe csm : Bool) (fs : String → Option Int) (r : Row) (i : Issue)
    (h : i ∈ rowExistSizeIssues cfe csm fs r) :
    (i.code, i.severity) ∈
      ([("FILE_NOT_FOUND", "ERROR"), ("SIZE_MISSING", "ERROR"), ("SIZE_MISMATCH", "WARN")]
        : List (String × String)) := by
  unfold rowExistSizeIssues at h
  rcases hfs : fs (pathOf r) with _ | sz
  all_goals rcases hsz : to_int_safely ((rget r "size_bytes").getD Val.vnone) with _ | inv
  all_goals try simp only [hfs, hsz] at h
  all_goals repeat' split at h
  all_goals simp_all

theorem existSizeIssues_pairs (cfe csm : Bool) (fs : String → Option Int) (rows : List Row)
    (i : Issue) (h : i ∈ existSizeIssues cfe csm fs rows) :
    (i.code, i.severity) ∈
      ([("FILE_NOT_FOUND", "ERROR"), ("SIZE_MISSING", "ERROR"), ("SIZE_MISMATCH", "WARN")]
        : List (String × String)) := by
  unfold existSizeIssues at h
  split at h
  · induction rows with
    | nil => simp [existSizeLoop] at h
    | cons r rest ih =>
      simp only [existSizeLoop, List.mem_append] at h
      rcases h with h | h
      · exact rowExistSizeIssues_pairs cfe csm fs r i h
      · exact ih h
  · simp at h

theorem rowTsIssues_pairs (emin : ℚ) (r : Row) (i : Issue) (tfs : List String)
    (h : i ∈ rowTsIssues emin r tfs) :
    (i.code, i.severity) ∈
      ([("TS_MISSING", "WARN"), ("TS_BAD_TYPE", "WARN"), ("TS_OUT_OF_RANGE", "WARN")]
        : List (String × String)) := by
  induction tfs with
  | nil => simp [rowTsIssues] at h
  | cons tf rest ih =>
    simp only [rowTsIssues, List.mem_append] at h
    rcases h with h | h
    · repeat' split at h
      all_goals simp_all
    · exact ih h

theorem tsIssues_pairs (emin : ℚ) (allowMB : Bool) (rows : List Row) (i : Issue)
    (h : i ∈ tsIssues emin allowMB rows) :
    (i.code, i.severity) ∈
      ([("TS_MISSING", "WARN"), ("TS_BAD_TYPE", "WARN"), ("TS_OUT_OF_RANGE", "WARN")]
        : List (String × String)) := by
  induction rows with
  | nil => simp [tsIssues] at h
  | cons r rest ih =>
    simp only [tsIssues, List.mem_append] at h
    rcases h with h | h
    · exact rowTsIssues_pairs emin r i (time_fields allowMB) h
    · exact ih h

theorem dupIssuesOf_pairs (acc : List (String × Nat)) (i : Issue)
    (h : i ∈ dupIssuesOf acc) :
    (i.code, i.severity) ∈ ([("DUP_PATH", "WARN")] : List (String × String)) := by
  induction acc with
  | nil => simp [dupIssuesOf] at h
  | cons e rest ih =>
    rcases e with ⟨p, c⟩
    simp only [dupIssuesOf, List.mem_append] at h
    rcases h with h | h
    · split at h <;> simp_all
    · exact ih h

theorem dupIssues_pairs (dd : Bool) (rows : List Row) (i : Issue)
    (h : i ∈ dupIssues dd rows) :
    (i.code, i.severity) ∈ ([("DUP_PATH", "WARN")] : List (String × String)) := by
  unfold dupIssues at h
  split at h
  · exact dupIssuesOf_pairs _ i h
  · simp at h

theorem rowExtIssue_pairs (r : Row) (i : Issue) (h : i ∈ rowExtIssue r) :
    (i.code, i.severity) ∈ ([("EXT_MISMATCH", "INFO")] : List (String × String)) := by
  unfold rowExtIssue at h
  split at h <;> simp_all

theorem extIssues_pairs (rows : List Row) (i : Issue) (h : i ∈ extIssues rows) :
    (i.code, i.severity) ∈ ([("EXT_MISMATCH", "INFO")] : List (String × String)) := by
  induction rows with
  | nil => simp [extIssues] at h
  | cons r rest ih =>
    simp only [extIssues, List.mem_append] at h
    rcases h with h | h
    · exact rowExtIssue_pairs r i h
    · exact ih h

theorem checkAlgo_eq (p : String) (r : Row) (digests : List (String × String))
    (algo m : String) :
    checkAlgo p r digests algo m =
      if expected_of r algo m == "" then
        [⟨p, "HASH_EXPECTED_MISSING", "WARN", algo ++ " 값 누락", algo, ""⟩]
      else if actual_of digests algo m == "" then
        [⟨p, "HASH_ACTUAL_MISSING", "WARN", algo ++ " 재계산 실패", algo, ""⟩]
      else if pyLower (expected_of r algo m) != pyLower (actual_of digests algo m) then
        [⟨p, "HASH_VERIFY_FAIL", "ERROR",
          algo ++ " 불일치: expected=" ++ pyTake (expected_of r algo m) 12
            ++ "… actual=" ++ pyTake (actual_of digests algo m) 12 ++ "…",
          algo, expected_of r algo m⟩]
      else [] := rfl

theorem checkAlgo_pairs (p : String) (r : Row) (digests : List (String × String))
    (algo m : String) (i : Issue) (h : i ∈ checkAlgo p r digests algo m) :
    (i.code, i.severity) ∈
      ([("HASH_EXPECTED_MISSING", "WARN"), ("HASH_ACTUAL_MISSING", "WARN"),
        ("HASH_VERIFY_FAIL", "ERROR")] : List (String × String)) := by
  rw [checkAlgo_eq] at h
  repeat' split at h
  all_goals simp_all

theorem checkAlgos_pairs (p : String) (r : Row) (digests : List (String × String))
    (m : String) (algos : List String) (i : Issue) (h : i ∈ checkAlgos p r digests m algos) :
    (i.code, i.severity) ∈
      ([("HASH_EXPECTED_MISSING", "WARN"), ("HASH_ACTUAL_MISSING", "WARN"),
        ("HASH_VERIFY_FAIL", "ERROR")] : List (String × String)) := by
  induction algos with
  | nil => simp [checkAlgos] at h
  | cons a rest ih =>
    simp only [checkAlgos, List.mem_append] at h
    rcases h with h | h
    · exact checkAlgo_pairs p r digests a m i h
    · exact ih h

theorem verifyRecord_pairs (hf : HashFn) (algos : List String) (m : String) (r : Row)
    (i : Issue) (h : i ∈ verifyRecord hf algos m r) :
    (i.code, i.severity) ∈
      ([("HASH_VERIFY_ERROR", "ERROR"), ("HASH_VERIFY_READ_FAIL", "WARN"),
        ("HASH_EXPECTED_MISSING", "WARN"), ("HASH_ACTUAL_MISSING", "WARN"),
        ("HASH_VERIFY_FAIL", "ERROR")] : List (String × String)) := by
  unfold verifyRecord at h
  rcases hh : hf (pyStr ((rget r "path").getD Val.vnone)) with e | _ | dg
  all_goals simp only [hh] at h
  · simp_all
  · simp_all
  · have hmem := checkAlgos_pairs (pyStr ((rget r "path").getD Val.vnone)) r dg m algos i h
    simp only [List.mem_cons, List.not_mem_nil, or_false] at hmem
    rcases hmem with h1 | h1 | h1 <;> simp [h1]

theorem processSample_pairs (hf : HashFn) (algos : List String) (m : String)
    (sample : List Row) (i : Issue) (h : i ∈ processSample hf algos m sample) :
    (i.code, i.severity) ∈
      ([("HASH_VERIFY_ERROR", "ERROR"), ("HASH_VERIFY_READ_FAIL", "WARN"),
        ("HASH_EXPECTED_MISSING", "WARN"), ("HASH_ACTUAL_MISSING", "WARN"),
        ("HASH_VERIFY_FAIL", "ERROR")] : List (String × String)) := by
  induction sample with
  | nil => simp [processSample] at h
  | cons r rest ih =>
    simp only [processSample, List.mem_append] at h
    rcases h with h | h
    · exact verifyRecord_pairs hf algos m r i h
    · exact ih h

theorem sev_of_pair (i : Issue) (ps : List (String × String))
    (hps : ∀ p ∈ ps, p.2 = sev_of p.1) (h : (i.code, i.severity) ∈ ps) :
    i.severity = sev_of i.code := by
  induction ps with
  | nil => simp at h
  | cons p rest ih =>
    rcases List.mem_cons.mp h with h | h
    · have h1 : i.code = p.1 := congrArg Prod.fst h
      have h2 : i.severity = p.2 := congrArg Prod.snd h
      rw [h2, hps p (by simp), h1]
    · exact ih (fun q hq => hps q (by simp [hq])) h

/-- C4 (confirmed): every issue emitted by validate_inventory_rows or
sample_verify_hashes carries the severity fixed by its code — ERROR for
MISSING_FIELD, FILE_NOT_FOUND, SIZE_MISSING, HASH_VERIFY_ERROR and
HASH_VERIFY_FAIL; WARN for SIZE_MISMATCH, TS_MISSING, TS_BAD_TYPE,
TS_OUT_OF_RANGE, DUP_PATH, HASH_VERIFY_READ_FAIL, HASH_EXPECTED_MISSING and
HASH_ACTUAL_MISSING; INFO for EXT_MISMATCH and HASH_VERIFY_SKIPPED — for every
input batch and configuration. -/
theorem severity_fixed_per_code :
    (∀ (fs : String → Option Int) (rows : List Row) (required : List String)
        (cfe csm : Bool) (emin : ℚ) (allowMB dd : Bool),
      ∀ i ∈ validate_inventory_rows fs rows required cfe csm emin allowMB dd,
        i.severity = sev_of i.code)
    ∧ (∀ (hasher : Option HashFn) (pick : List Row → ℕ → List Row)
        (rows : List Row) (algos : List String) (frac : ℚ) (mn mx : ℤ) (m : String)
        (issues : List Issue),
        sample_verify_hashes hasher pick rows algos frac mn mx m = Except.ok issues →
        ∀ i ∈ issues, i.severity = sev_of i.code) := by
  constructor
  · intro fs rows required cfe csm emin allowMB dd i hi
    unfold validate_inventory_rows at hi
    simp only [List.mem_append] at hi
    rcases hi with ((((hi | hi) | hi) | hi) | hi)
    · exact sev_of_pair i _ (by decide) (requiredIssues_pairs required rows i hi)
    · exact sev_of_pair i _ (by decide) (existSizeIssues_pairs cfe csm fs rows i hi)
    · exact sev_of_pair i _ (by decide) (tsIssues_pairs emin allowMB rows i hi)
    · exact sev_of_pair i _ (by decide) (dupIssues_pairs dd rows i hi)
    · exact sev_of_pair i _ (by decide) (extIssues_pairs rows i hi)
  · intro hasher pick rows algos frac mn mx m issues heq i hi
    cases hasher with
    | none =>
      simp only [sample_verify_hashes] at heq
      have hiss : [skippedIssue] = issues := Except.ok.inj heq
      rw [← hiss] at hi
      simp at hi
      subst hi
      decide
    | some hf =>
      simp only [sample_verify_hashes] at heq
      split at heq
      · have hiss : ([] : List Issue) = issues := Except.ok.inj heq
        rw [← hiss] at hi
        simp at hi
      · split at heq
        · exact absurd heq (by simp)
        · rename_i sample hsel
          have hiss : processSample hf algos m sample = issues := Except.ok.inj heq
          rw [← hiss] at hi
          exact sev_of_pair i _ (by decide) (processSample_pairs hf algos m sample i hi)

/-- C4 witness: the single skip issue of an unavailable collaborator carries
severity INFO = sev_of HASH_VERIFY_SKIPPED. -/
theorem severity_fixed_per_code_witness :
    skippedIssue.severity = sev_of skippedIssue.code :=
  severity_fixed_per_code.2 none takePick [] [] 0 5 200 "" [skippedIssue] rfl
    skippedIssue (by simp)

/-! ## Filtering by issue code -/

theorem filter_code_nil (l : List Issue) (ps : List (String × String)) (c : String)
    (hmem : ∀ i ∈ l, (i.code, i.severity) ∈ ps) (hc : ∀ p ∈ ps, p.1 ≠ c) :
    l.filter (fun i => i.code == c) = [] := by
  rw [List.filter_eq_nil_iff]
  intro i hi
  have := hc _ (hmem i hi)
  simp_all

theorem filter_code_field_nil (l : List Issue) (ps : List (String × String)) (c : String)
    (g : Issue → Bool) (hmem : ∀ i ∈ l, (i.code, i.severity) ∈ ps)
    (hc : ∀ p ∈ ps, p.1 ≠ c) :
    l.filter (fun i => i.code == c && g i) = [] := by
  rw [List.filter_eq_nil_iff]
  intro i hi
  have := hc _ (hmem i hi)
  simp_all

/-! ## C10: the EXT_MISMATCH gate is a strict boolean test -/

theorem rowExtIssue_eq (r : Row) :
    rowExtIssue r =
      if rget r "ext_mismatch" == some (Val.vbool true) then
        [⟨pathOf r, "EXT_MISMATCH", "INFO", "확장자와 시그니처 불일치", "ext_mismatch", "True"⟩]
      else [] := by
  unfold rowExtIssue
  rcases h : rget r "ext_mismatch" with _ | v
  · simp
  · cases v
    case vbool b => cases b <;> simp
    all_goals simp

theorem extIssues_count (rows : List Row) :
    ((extIssues rows).filter (fun i => i.code == "EXT_MISMATCH")).length
      = rows.countP (fun r => rget r "ext_mismatch" == some (Val.vbool true)) := by
  induction rows with
  | nil => simp [extIssues]
  | cons r rest ih =>
    simp only [extIssues, List.filter_append, List.length_append, ih, List.countP_cons,
      rowExtIssue_eq]
    by_cases h : rget r "ext_mismatch" == some (Val.vbool true)
    · simp [h]
      omega
    · simp [h]

/-- C10 (confirmed): validate_inventory_rows emits one EXT_MISMATCH issue per
record whose ext_mismatch field holds the boolean value True, and none
otherwise; in particular truthy non-boolean values such as the string "True"
or the integer 1 (as arise after a CSV round-trip) produce no EXT_MISMATCH
issue. -/
theorem ext_mismatch_strict_bool :
    (∀ (fs : String → Option Int) (rows : List Row) (required : List String)
        (cfe csm : Bool) (emin : ℚ) (allowMB dd : Bool),
      ((validate_inventory_rows fs rows required cfe csm emin allowMB dd).filter
          (fun i => i.code == "EXT_MISMATCH")).length
        = rows.countP (fun r => rget r "ext_mismatch" == some (Val.vbool true)))
    ∧ (validate_inventory_rows (fun _ => none)
        [[("path", Val.vstr "x"), ("ext_mismatch", Val.vstr "True")],
         [("path", Val.vstr "y"), ("ext_mismatch", Val.vint 1)]]
        default_required true true 0 true true).filter
          (fun i => i.code == "EXT_MISMATCH") = [] := by
  constructor
  · intro fs rows required cfe csm emin allowMB dd
    unfold validate_inventory_rows
    simp only [List.filter_append, List.length_append]
    rw [filter_code_nil _ _ _ (requiredIssues_pairs required rows) (by decide),
      filter_code_nil _ _ _ (existSizeIssues_pairs cfe csm fs rows) (by decide),
      filter_code_nil _ _ _ (tsIssues_pairs emin allowMB rows) (by decide),
      filter_code_nil _ _ _ (dupIssues_pairs dd rows) (by decide)]
    simp [extIssues_count]
  · decide

/-! ## C2: the timestamp range check is strict -/

theorem rowTs_single_count (emin : ℚ) (r : Row) (tf c : String) :
    ((rowTsIssues emin r [tf]).filter
        (fun i => i.code == "TS_OUT_OF_RANGE" && i.field == c)).length
      = if c = tf ∧ ts_out_of_range emin r tf then 1 else 0 := by
  cases hm : missing_val (rget r tf)
  · rcases hf : to_float_safely ((rget r tf).getD Val.vnone) with _ | pf
    · simp [rowTsIssues, ts_out_of_range, hm, hf]
    · rcases pf with q | _
      · by_cases hq : q < emin
        · by_cases hc : c = tf
          · simp [rowTsIssues, ts_out_of_range, hm, hf, hq, hc]
          · simp [rowTsIssues, ts_out_of_range, hm, hf, hq, hc, Ne.symm hc]
        · simp [rowTsIssues, ts_out_of_range, hm, hf, hq]
      · simp [rowTsIssues, ts_out_of_range, hm, hf]
  · simp [rowTsIssues, ts_out_of_range, hm]

theorem rowTs_count (emin : ℚ) (r : Row) (c : String) (tfs : List String) :
    ((rowTsIssues emin r tfs).filter
        (fun i => i.code == "TS_OUT_OF_RANGE" && i.field == c)).length
      = (tfs.count c) * (if ts_out_of_range emin r c then 1 else 0) := by
  induction tfs with
  | nil => simp [rowTsIssues]
  | cons tf rest ih =>
    have hsplit : rowTsIssues emin r (tf :: rest)
        = rowTsIssues emin r [tf] ++ rowTsIssues emin r rest := by
      simp [rowTsIssues]
    rw [hsplit, List.filter_append, List.length_append, ih, rowTs_single_count,
      List.count_cons]
    by_cases hc : c = tf
    · subst hc
      by_cases hoor : ts_out_of_range emin r c <;> simp [hoor] <;> ring
    · have hcb : (c == tf) = false := by simp [hc]
      simp [hc, hcb, Ne.symm hc]

theorem tsIssues_count (emin : ℚ) (allowMB : Bool) (c : String)
    (h1 : (time_fields allowMB).count c = 1) (rows : List Row) :
    ((tsIssues emin allowMB rows).filter
        (fun i => i.code == "TS_OUT_OF_RANGE" && i.field == c)).length
      = rows.countP (fun r => ts_out_of_range emin r c) := by
  induction rows with
  | nil => simp [tsIssues]
  | cons r rest ih =>
    simp only [tsIssues, List.filter_append, List.length_append, List.countP_cons, ih,
      rowTs_count, h1]
    by_cases hoor : ts_out_of_range emin r c <;> simp [hoor] <;> omega

theorem time_fields_count_one (allowMB : Bool) (tf : String)
    (htf : tf ∈ (["mtime_epoch", "atime_epoch", "ctime_epoch"] : List String)) :
    (time_fields allowMB).count tf = 1 := by
  simp only [List.mem_cons, List.not_mem_nil, or_false] at htf
  rcases htf with rfl | rfl | rfl <;> cases allowMB <;> decide

/-- C2 (amended): with the default minimum epoch 0, for every record and each
checked timestamp field (mtime_epoch, atime_epoch, ctime_epoch), a
TS_OUT_OF_RANGE issue naming that field — always of severity WARN — is emitted
exactly once per record whose value for that field is present, numeric, and
strictly negative (strictly below the minimum); a value of exactly zero
produces no issue.  In particular a record with mtime_epoch = -5 yields one
TS_OUT_OF_RANGE WARN issue for field mtime_epoch. -/
theorem ts_out_of_range_strict :
    (∀ (fs : String → Option Int) (rows : List Row) (required : List String)
        (cfe csm allowMB dd : Bool) (tf : String),
      tf ∈ (["mtime_epoch", "atime_epoch", "ctime_epoch"] : List String) →
      ((validate_inventory_rows fs rows required cfe csm 0 allowMB dd).filter
          (fun i => i.code == "TS_OUT_OF_RANGE" && i.field == tf)).length
        = rows.countP (fun r => ts_out_of_range 0 r tf))
    ∧ (∀ (fs : String → Option Int) (rows : List Row) (required : List String)
        (cfe csm : Bool) (emin : ℚ) (allowMB dd : Bool),
      ∀ i ∈ validate_inventory_rows fs rows required cfe csm emin allowMB dd,
        i.code = "TS_OUT_OF_RANGE" → i.severity = "WARN")
    ∧ (validate_inventory_rows (fun _ => none) [[("mtime_epoch", Val.vint (-5))]]
        default_required true true 0 true true).filter
        (fun i => i.code == "TS_OUT_OF_RANGE")
      = [⟨"", "TS_OUT_OF_RANGE", "WARN", "비정상(epoch<0.0)", "mtime_epoch", "-5.0"⟩] := by
  refine ⟨?_, ?_, ?_⟩
  · intro fs rows required cfe csm allowMB dd tf htf
    unfold validate_inventory_rows
    simp only [List.filter_append, List.length_append]
    rw [filter_code_field_nil _ _ _ _ (requiredIssues_pairs required rows) (by decide),
      filter_code_field_nil _ _ _ _ (existSizeIssues_pairs cfe csm fs rows) (by decide),
      filter_code_field_nil _ _ _ _ (dupIssues_pairs dd rows) (by decide),
      filter_code_field_nil _ _ _ _ (extIssues_pairs rows) (by decide)]
    simp [tsIssues_count 0 allowMB tf (time_fields_count_one allowMB tf htf) rows]
  · intro fs rows required cfe csm emin allowMB dd i hi hcode
    unfold validate_inventory_rows at hi
    simp only [List.mem_append] at hi
    rcases hi with ((((hi | hi) | hi) | hi) | hi)
    · have := requiredIssues_pairs required rows i hi
      simp_all
    · have := existSizeIssues_pairs cfe csm fs rows i hi
      simp_all
    · have := tsIssues_pairs emin allowMB rows i hi
      simp_all
    · have := dupIssues_pairs dd rows i hi
      simp_all
    · have := extIssues_pairs rows i hi
      simp_all
  · decide

/-- C2 witness: the -5 scenario instantiating the counting conjunct. -/
theorem ts_out_of_range_strict_witness :
    ((validate_inventory_rows (fun _ => none) [[("mtime_epoch", Val.vint (-5))]]
        default_required true true 0 true true).filter
        (fun i => i.code == "TS_OUT_OF_RANGE" && i.field == "mtime_epoch")).length
      = ([[("mtime_epoch", Val.vint (-5))]] : List Row).countP
          (fun r => ts_out_of_range 0 r "mtime_epoch") :=
  ts_out_of_range_strict.1 (fun _ => none) [[("mtime_epoch", Val.vint (-5))]]
    default_required true true true true "mtime_epoch" (by decide)

/-- C2 counterexample: a record with mtime_epoch = 0 — numeric and zero —
produces no TS_OUT_OF_RANGE issue at all (the code tests strictly
`fv < epoch_min` with the default 0), while the claim demands exactly one. -/
theorem ts_zero_not_flagged :
    ((validate_inventory_rows (fun _ => none) [[("mtime_epoch", Val.vint 0)]]
        default_required true true 0 true true).filter
        (fun i => i.code == "TS_OUT_OF_RANGE")).length = 0 := by decide

/-! ## C3: duplicate-path tally -/

theorem lookupTally_bump_self (p : String) :
    ∀ acc : List (String × Nat), lookupTally (bumpTally acc p) p = lookupTally acc p + 1
  | [] => by simp [bumpTally, lookupTally, List.find?]
  | (q, n) :: rest => by
    by_cases hq : q = p
    · subst hq
      simp [bumpTally, lookupTally, List.find?]
    · have hqb : (q == p) = false := by simp [hq]
      simp [bumpTally, lookupTally, List.find?, hqb]
      have := lookupTally_bump_self p rest
      simpa [lookupTally] using this

theorem lookupTally_bump_ne (p x : String) (hx : x ≠ p) :
    ∀ acc : List (String × Nat), lookupTally (bumpTally acc p) x = lookupTally acc x
  | [] => by
    have h1 : (p == x) = false := by simp [Ne.symm hx]
    simp [bumpTally, lookupTally, List.find?, h1]
  | (q, n) :: rest => by
    by_cases hq : q = p
    · subst hq
      have h1 : (q == x) = false := by simp [Ne.symm hx]
      simp [bumpTally, lookupTally, List.find?, h1]
    · have hqb : (q == p) = false := by simp [hq]
      by_cases hqx : q = x
      · subst hqx
        simp [bumpTally, lookupTally, List.find?, hqb]
      · have hqxb : (q == x) = false := by simp [hqx]
        simp [bumpTally, lookupTally, List.find?, hqb, hqxb]
        have := lookupTally_bump_ne p x hx rest
        simpa [lookupTally] using this

theorem tallyPaths_lookup (p : String) (hp : p ≠ "") :
    ∀ (rows : List Row) (acc : List (String × Nat)),
      lookupTally (tallyPaths acc rows) p
        = lookupTally acc p + rows.countP (fun r => pathOf r == p)
  | [], acc => by simp [tallyPaths]
  | r :: rest, acc => by
    simp only [tallyPaths, List.countP_cons]
    rw [tallyPaths_lookup p hp rest]
    by_cases hr : pathOf r = p
    · have h0 : (p == "") = false := by simp [hp]
      simp [hr, h0, lookupTally_bump_self]
      omega
    · have hrb : (pathOf r == p) = false := by simp [hr]
      by_cases h0 : pathOf r = ""
      · simp [h0, hrb, Ne.symm hp]
      · have h0b : (pathOf r == "") = false := by simp [h0]
        simp [h0b, hrb, lookupTally_bump_ne (pathOf r) p (Ne.symm hr)]

theorem tallyKeys_bump (p : String) :
    ∀ acc : List (String × Nat),
      tallyKeys (bumpTally acc p)
        = if p ∈ tallyKeys acc then tallyKeys acc else tallyKeys acc ++ [p]
  | [] => by simp [bumpTally, tallyKeys]
  | (q, n) :: rest => by
    by_cases hq : q = p
    · subst hq
      simp [bumpTally, tallyKeys]
    · have hqb : (q == p) = false := by simp [hq]
      have hL : tallyKeys (bumpTally ((q, n) :: rest) p)
          = q :: tallyKeys (bumpTally rest p) := by
        simp [bumpTally, hqb, tallyKeys]
      have hR : tallyKeys ((q, n) :: rest) = q :: tallyKeys rest := by simp [tallyKeys]
      rw [hL, tallyKeys_bump p rest, hR]
      by_cases hmem : p ∈ tallyKeys rest
      · rw [if_pos hmem, if_pos (by simp [hmem])]
      · rw [if_neg hmem, if_neg (by simp [List.mem_cons, hmem, Ne.symm hq])]
        simp

theorem tallyKeys_nodup :
    ∀ (rows : List Row) (acc : List (String × Nat)),
      (tallyKeys acc).Nodup → (tallyKeys (tallyPaths acc rows)).Nodup
  | [], acc, h => by simpa [tallyPaths] using h
  | r :: rest, acc, h => by
    simp only [tallyPaths]
    by_cases h0 : pathOf r = ""
    · have h0b : (pathOf r == "") = true := by simp [h0]
      rw [if_pos h0b]
      exact tallyKeys_nodup rest acc h
    · have h0b : (pathOf r == "") = false := by simp [h0]
      rw [h0b]
      simp only [Bool.false_eq_true, if_false]
      apply tallyKeys_nodup rest
      rw [tallyKeys_bump]
      by_cases hm : pathOf r ∈ tallyKeys acc
      · simpa [hm] using h
      · simp only [hm, if_false]
        rw [List.nodup_append]
        exact ⟨h, List.nodup_singleton _, by simpa using hm⟩

theorem lookupTally_of_mem (p : String) (c : Nat) :
    ∀ acc : List (String × Nat),
      (tallyKeys acc).Nodup → (p, c) ∈ acc → lookupTally acc p = c
  | [], _, hmem => by simp at hmem
  | (q, n) :: rest, hnd, hmem => by
    have hnd2 : (q :: tallyKeys rest).Nodup := by
      have hcons : tallyKeys ((q, n) :: rest) = q :: tallyKeys rest := by simp [tallyKeys]
      rwa [hcons] at hnd
    have hnd' := List.nodup_cons.mp hnd2
    rcases List.mem_cons.mp hmem with he | he
    · rcases he with ⟨rfl, rfl⟩
      simp [lookupTally, List.find?]
    · have hpk : p ∈ tallyKeys rest := by
        simpa [tallyKeys] using List.mem_map_of_mem (fun e => e.1) he
      have hq : q ≠ p := fun h => hnd'.1 (h ▸ hpk)
      have hqb : (q == p) = false := by simp [hq]
      simp only [lookupTally, List.find?, hqb]
      have := lookupTally_of_mem p c rest hnd'.2 he
      simpa [lookupTally] using this

theorem dupIssuesOf_not_mem (p : String) :
    ∀ acc : List (String × Nat), p ∉ tallyKeys acc →
      (dupIssuesOf acc).filter (fun i => i.code == "DUP_PATH" && i.path == p) = []
  | [], _ => by simp [dupIssuesOf]
  | (q, n) :: rest, hnm => by
    have hcons : tallyKeys ((q, n) :: rest) = q :: tallyKeys rest := by simp [tallyKeys]
    have hq : q ≠ p := fun h => hnm (by rw [hcons, h]; exact List.mem_cons_self _ _)
    have hrest : p ∉ tallyKeys rest := fun h => hnm (by rw [hcons]; exact List.mem_cons_of_mem _ h)
    simp only [dupIssuesOf, List.filter_append]
    rw [dupIssuesOf_not_mem p rest hrest]
    by_cases h1 : 1 < n <;> simp [h1, hq]

theorem dupIssuesOf_filter_count (p : String) :
    ∀ acc : List (String × Nat), (tallyKeys acc).Nodup →
      ((dupIssuesOf acc).filter (fun i => i.code == "DUP_PATH" && i.path == p)).length
        = if 1 < lookupTally acc p then 1 else 0
  | [], _ => by simp [dupIssuesOf, lookupTally, List.find?]
  | (q, n) :: rest, hnd => by
    have hnd2 : (q :: tallyKeys rest).Nodup := by
      have hcons : tallyKeys ((q, n) :: rest) = q :: tallyKeys rest := by simp [tallyKeys]
      rwa [hcons] at hnd
    have hnd' := List.nodup_cons.mp hnd2
    simp only [dupIssuesOf, List.filter_append, List.length_append]
    by_cases hq : q = p
    · subst hq
      rw [dupIssuesOf_not_mem q rest hnd'.1]
      by_cases h1 : 1 < n <;> simp [h1, lookupTally, List.find?]
    · have hqb : (q == p) = false := by simp [hq]
      rw [dupIssuesOf_filter_count p rest hnd'.2]
      have hlk : lookupTally ((q, n) :: rest) p = lookupTally rest p := by
        simp [lookupTally, List.find?, hqb]
      rw [hlk]
      by_cases h1 : 1 < n <;> simp [h1, hqb]

theorem dupIssuesOf_mem_shape (i : Issue) :
    ∀ acc : List (String × Nat), i ∈ dupIssuesOf acc →
      ∃ q c, (q, c) ∈ acc ∧ 1 < c
        ∧ i = ⟨q, "DUP_PATH", "WARN", "중복 path " ++ toString c ++ "개", "", ""⟩
  | [], h => by simp [dupIssuesOf] at h
  | (q, n) :: rest, h => by
    simp only [dupIssuesOf, List.mem_append] at h
    rcases h with h | h
    · by_cases h1 : 1 < n
      · simp [h1] at h
        exact ⟨q, n, by simp, h1, h⟩
      · simp [h1] at h
    · obtain ⟨q', c', hm, hc, he⟩ := dupIssuesOf_mem_shape i rest h
      exact ⟨q', c', by simp [hm], hc, he⟩

/-- C3 (confirmed): with duplicate detection enabled, each non-empty path
occurring m > 1 times in the batch yields exactly one DUP_PATH issue (not one
per extra occurrence); every DUP_PATH issue for that path has severity WARN and
embeds the occurrence count m in its detail text. -/
theorem dup_path_single_issue (fs : String → Option Int) (rows : List Row)
    (required : List String) (cfe csm : Bool) (emin : ℚ) (allowMB : Bool) (p : String)
    (hp : p ≠ "") (hm : 1 < rows.countP (fun r => pathOf r == p)) :
    ((validate_inventory_rows fs rows required cfe csm emin allowMB true).filter
        (fun i => i.code == "DUP_PATH" && i.path == p)).length = 1
    ∧ ∀ i ∈ validate_inventory_rows fs rows required cfe csm emin allowMB true,
        i.code = "DUP_PATH" → i.path = p →
        i.severity = "WARN"
          ∧ strContains i.detail (toString (rows.countP (fun r => pathOf r == p))) := by
  have hnd : (tallyKeys (tallyPaths [] rows)).Nodup :=
    tallyKeys_nodup rows [] (by simp [tallyKeys])
  have hlk : lookupTally (tallyPaths [] rows) p = rows.countP (fun r => pathOf r == p) := by
    rw [tallyPaths_lookup p hp rows []]
    simp [lookupTally, List.find?]
  constructor
  · unfold validate_inventory_rows
    simp only [List.filter_append, List.length_append]
    rw [filter_code_field_nil _ _ _ _ (requiredIssues_pairs required rows) (by decide),
      filter_code_field_nil _ _ _ _ (existSizeIssues_pairs cfe csm fs rows) (by decide),
      filter_code_field_nil _ _ _ _ (tsIssues_pairs emin allowMB rows) (by decide),
      filter_code_field_nil _ _ _ _ (extIssues_pairs rows) (by decide)]
    simp only [dupIssues, if_true]
    rw [dupIssuesOf_filter_count p (tallyPaths [] rows) hnd, hlk]
    simp [hm]
  · intro i hi hcode hpath
    unfold validate_inventory_rows at hi
    simp only [List.mem_append] at hi
    rcases hi with ((((hi | hi) | hi) | hi) | hi)
    · have := requiredIssues_pairs required rows i hi
      simp_all
    · have := existSizeIssues_pairs cfe csm fs rows i hi
      simp_all
    · have := tsIssues_pairs emin allowMB rows i hi
      simp_all
    · simp only [dupIssues, if_true] at hi
      obtain ⟨q, c, hmem, hc1, he⟩ := dupIssuesOf_mem_shape i (tallyPaths [] rows) hi
      have hq : q = p := by
        rw [he] at hpath
        exact hpath
      rw [hq] at hmem he
      have hcv : c = rows.countP (fun r => pathOf r == p) := by
        rw [← hlk]
        exact (lookupTally_of_mem p c (tallyPaths [] rows) hnd hmem).symm
      subst hcv
      rw [he]
      exact ⟨rfl, ⟨"중복 path ", "개", rfl⟩⟩
    · have := extIssues_pairs rows i hi
      simp_all

/-- C3 witness: a batch with path "a" occurring twice. -/
theorem dup_path_single_issue_witness :
    ((validate_inventory_rows (fun _ => none)
        [[("path", Val.vstr "a")], [("path", Val.vstr "a")]]
        default_required true true 0 true true).filter
        (fun i => i.code == "DUP_PATH" && i.path == "a")).length = 1
    ∧ ∀ i ∈ validate_inventory_rows (fun _ => none)
        [[("path", Val.vstr "a")], [("path", Val.vstr "a")]]
        default_required true true 0 true true,
        i.code = "DUP_PATH" → i.path = "a" →
        i.severity = "WARN"
          ∧ strContains i.detail (toString
              (([[("path", Val.vstr "a")], [("path", Val.vstr "a")]] : List Row).countP
                (fun r => pathOf r == "a"))) :=
  dup_path_single_issue (fun _ => none)
    [[("path", Val.vstr "a")], [("path", Val.vstr "a")]]
    default_required true true 0 true "a" (by decide) (by decide)

/-! ## C6: hash comparison is case-insensitive, with truncated digests in the detail -/

theorem strContains_of_parts (a t b : String) : strContains (a ++ t ++ b) t :=
  ⟨a, b, rfl⟩

theorem selectSample_single (pick : List Row → ℕ → List Row) (r : Row) :
    selectSample pick [r] (1 / 20) 5 200 = Except.ok [r] := by
  simp only [selectSample, List.length_singleton, sample_size_one_default]
  norm_num

/-- C6 (amended): for a sampled record and algorithm where both the recorded
and the recomputed digests are non-empty, a HASH_VERIFY_FAIL issue — severity
ERROR, field the algorithm name, with the first 12 characters of each digest in
its detail (a distinguishing prefix whenever the digests first differ within 12
characters) — is emitted exactly when the two digests differ under
case-insensitive comparison; digests equal up to letter case produce no issue;
and the record {path: "a.txt", md5: "deadbeef"} whose live recompute yields
md5 = "cafebabe" produces exactly one such issue for field md5. -/
theorem hash_mismatch_iff (p : String) (r : Row) (digests : List (String × String))
    (algo m : String) (he : expected_of r algo m ≠ "") (ha : actual_of digests algo m ≠ "") :
    (checkAlgo p r digests algo m =
      if pyLower (expected_of r algo m) != pyLower (actual_of digests algo m) then
        [⟨p, "HASH_VERIFY_FAIL", "ERROR",
          algo ++ " 불일치: expected=" ++ pyTake (expected_of r algo m) 12
            ++ "… actual=" ++ pyTake (actual_of digests algo m) 12 ++ "…",
          algo, expected_of r algo m⟩]
      else [])
    ∧ (∀ i ∈ checkAlgo p r digests algo m,
        i.code = "HASH_VERIFY_FAIL" ∧ i.severity = "ERROR" ∧ i.field = algo
          ∧ strContains i.detail (pyTake (expected_of r algo m) 12)
          ∧ strContains i.detail (pyTake (actual_of digests algo m) 12))
    ∧ sample_verify_hashes (some (fun _ => HashOutcome.hok [("md5", "cafebabe")])) takePick
        [[("path", Val.vstr "a.txt"), ("md5", Val.vstr "deadbeef")]] ["md5"] (1 / 20) 5 200 ""
        = Except.ok [⟨"a.txt", "HASH_VERIFY_FAIL", "ERROR",
            "md5 불일치: expected=deadbeef… actual=cafebabe…", "md5", "deadbeef"⟩] := by
  have heb : (expected_of r algo m == "") = false := by simp [he]
  have hab : (actual_of digests algo m == "") = false := by simp [ha]
  have h1 : checkAlgo p r digests algo m =
      if pyLower (expected_of r algo m) != pyLower (actual_of digests algo m) then
        [⟨p, "HASH_VERIFY_FAIL", "ERROR",
          algo ++ " 불일치: expected=" ++ pyTake (expected_of r algo m) 12
            ++ "… actual=" ++ pyTake (actual_of digests algo m) 12 ++ "…",
          algo, expected_of r algo m⟩]
      else [] := by
    rw [checkAlgo_eq]
    simp only [heb, hab, Bool.false_eq_true, if_false]
  refine ⟨h1, ?_, ?_⟩
  · intro i hi
    rw [h1] at hi
    split at hi
    · simp only [List.mem_singleton] at hi
      subst hi
      refine ⟨rfl, rfl, rfl, ?_, ?_⟩
      · rw [show algo ++ " 불일치: expected=" ++ pyTake (expected_of r algo m) 12
            ++ "… actual=" ++ pyTake (actual_of digests algo m) 12 ++ "…"
            = (algo ++ " 불일치: expected=") ++ pyTake (expected_of r algo m) 12
              ++ ("… actual=" ++ pyTake (actual_of digests algo m) 12 ++ "…") by
          simp [String.append_assoc]]
        exact strContains_of_parts _ _ _
      · rw [show algo ++ " 불일치: expected=" ++ pyTake (expected_of r algo m) 12
            ++ "… actual=" ++ pyTake (actual_of digests algo m) 12 ++ "…"
            = (algo ++ " 불일치: expected=" ++ pyTake (expected_of r algo m) 12
                ++ "… actual=") ++ pyTake (actual_of digests algo m) 12 ++ "…" by
          simp [String.append_assoc]]
        exact strContains_of_parts _ _ _
    · simp at hi
  · have hc : candidates_of [[("path", Val.vstr "a.txt"), ("md5", Val.vstr "deadbeef")]]
        = [[("path", Val.vstr "a.txt"), ("md5", Val.vstr "deadbeef")]] := by decide
    have hs : selectSample takePick
        (candidates_of [[("path", Val.vstr "a.txt"), ("md5", Val.vstr "deadbeef")]])
        (1 / 20) 5 200
        = Except.ok [[("path", Val.vstr "a.txt"), ("md5", Val.vstr "deadbeef")]] := by
      rw [hc]
      exact selectSample_single takePick _
    rw [sample_verify_unfold _ _ _ _ _ _ _ _ _ hs]
    rfl

/-- C6 witness: the deadbeef/cafebabe instance of the theorem. -/
theorem hash_mismatch_iff_witness :
    checkAlgo "a.txt" [("path", Val.vstr "a.txt"), ("md5", Val.vstr "deadbeef")]
        [("md5", "cafebabe")] "md5" ""
      = if pyLower (expected_of [("path", Val.vstr "a.txt"), ("md5", Val.vstr "deadbeef")] "md5" "")
            != pyLower (actual_of [("md5", "cafebabe")] "md5" "") then
          [⟨"a.txt", "HASH_VERIFY_FAIL", "ERROR",
            "md5" ++ " 불일치: expected="
              ++ pyTake (expected_of [("path", Val.vstr "a.txt"), ("md5", Val.vstr "deadbeef")] "md5" "") 12
              ++ "… actual=" ++ pyTake (actual_of [("md5", "cafebabe")] "md5" "") 12 ++ "…",
            "md5", expected_of [("path", Val.vstr "a.txt"), ("md5", Val.vstr "deadbeef")] "md5" ""⟩]
        else [] :=
  (hash_mismatch_iff "a.txt" [("path", Val.vstr "a.txt"), ("md5", Val.vstr "deadbeef")]
    [("md5", "cafebabe")] "md5" "" (by decide) (by decide)).1

/-- C6 counterexample: recorded digest "aaaaaaaaaaaab" and recomputed digest
"aaaaaaaaaaaac" agree on their first 12 characters; the emitted
HASH_VERIFY_FAIL detail then contains no distinguishing prefix of the expected
digest (none of its initial segments that are not also initial segments of the
actual digest occurs in the detail), refuting the claim's "at least a
distinguishing prefix of each". -/
theorem hash_mismatch_prefix_cex :
    checkAlgo "p" [("path", Val.vstr "p"), ("md5", Val.vstr "aaaaaaaaaaaab")]
        [("md5", "aaaaaaaaaaaac")] "md5" ""
      = [⟨"p", "HASH_VERIFY_FAIL", "ERROR",
          "md5 불일치: expected=aaaaaaaaaaaa… actual=aaaaaaaaaaaa…", "md5", "aaaaaaaaaaaab"⟩]
    ∧ ¬ distinguishingIn "md5 불일치: expected=aaaaaaaaaaaa… actual=aaaaaaaaaaaa…"
        "aaaaaaaaaaaab" "aaaaaaaaaaaac" := by
  constructor
  · rfl
  · unfold distinguishingIn
    decide

/-! ## C9: summary counters -/

theorem summarize_fold (k : String) :
    ∀ (issues : List Issue) (acc : String → Nat),
      (issues.foldl (fun acc i => bumpCount (bumpCount acc i.severity) i.code) acc) k
        = acc k + issues.countP (fun i => i.severity == k)
          + issues.countP (fun i => i.code == k)
  | [], acc => by simp
  | i :: rest, acc => by
    rw [List.foldl_cons, summarize_fold k rest]
    simp only [List.countP_cons]
    have hstep : (bumpCount (bumpCount acc i.severity) i.code) k
        = acc k + (if i.severity == k then 1 else 0) + (if i.code == k then 1 else 0) := by
      by_cases h1 : k = i.code <;> by_cases h2 : k = i.severity
      · simp [bumpCount, ← h1, ← h2]
      · have h3 : ¬i.severity = k := fun hh => h2 hh.symm
        simp [bumpCount, ← h1, h2, h3]
      · have h3 : ¬i.code = k := fun hh => h1 hh.symm
        simp [bumpCount, ← h2, h1, h3]
      · have h3 : ¬i.severity = k := fun hh => h2 hh.symm
        have h4 : ¬i.code = k := fun hh => h1 hh.symm
        simp [bumpCount, h1, h2, h3, h4]
    rw [hstep]
    omega

theorem summarize_apply (issues : List Issue) (k : String) :
    summarize_issues issues k
      = issues.countP (fun i => i.severity == k) + issues.countP (fun i => i.code == k) := by
  have h := summarize_fold k issues (fun _ => 0)
  simpa [summarize_issues] using h

theorem countP_sev_three (issues : List Issue)
    (hsev : ∀ i ∈ issues, i.severity ∈ (["INFO", "WARN", "ERROR"] : List String)) :
    issues.countP (fun i => i.severity == "INFO")
      + issues.countP (fun i => i.severity == "WARN")
      + issues.countP (fun i => i.severity == "ERROR") = issues.length := by
  induction issues with
  | nil => simp
  | cons i rest ih =>
    have hi := hsev i (by simp)
    have hr := ih (fun j hj => hsev j (by simp [hj]))
    simp only [List.countP_cons, List.length_cons]
    simp only [List.mem_cons, List.not_mem_nil, or_false] at hi
    rcases hi with h | h | h <;> simp [h] <;> omega

theorem sum_map_add_nat (f g : String → ℕ) :
    ∀ l : List String, (l.map (fun c => f c + g c)).sum = (l.map f).sum + (l.map g).sum
  | [] => by simp
  | c :: rest => by
    simp only [List.map_cons, List.sum_cons, sum_map_add_nat f g rest]
    omega

theorem sum_map_indicator (a : String) :
    ∀ l : List String, (l.map (fun c => if c == a then 1 else 0)).sum = l.count a
  | [] => by simp
  | c :: rest => by
    simp only [List.map_cons, List.sum_cons, sum_map_indicator a rest, List.count_cons]
    omega

theorem sum_dedup_count :
    ∀ l : List String, (l.dedup.map (fun c => l.count c)).sum = l.length
  | [] => by simp
  | a :: l => by
    by_cases h : a ∈ l
    · rw [List.dedup_cons_of_mem h]
      have hmap : l.dedup.map (fun c => (a :: l).count c)
          = l.dedup.map (fun c => l.count c + if c == a then 1 else 0) := by
        apply List.map_congr_left
        intro c _
        rw [List.count_cons]
        by_cases hca : c = a
        · simp [hca]
        · simp [hca, Ne.symm hca]
      rw [hmap, sum_map_add_nat, sum_dedup_count l, sum_map_indicator,
        List.count_dedup]
      simp [h]
    · rw [List.dedup_cons_of_not_mem h]
      simp only [List.map_cons, List.sum_cons]
      have hmap : l.dedup.map (fun c => (a :: l).count c)
          = l.dedup.map (fun c => l.count c) := by
        apply List.map_congr_left
        intro c hc
        rw [List.count_cons]
        have hca : c ≠ a := fun hh => h (hh ▸ List.mem_dedup.mp hc)
        simp [hca, Ne.symm hca]
      rw [hmap, sum_dedup_count l, List.count_cons]
      simp [List.count_eq_zero_of_not_mem h]
      omega

/-- C9 (confirmed): for an issue list whose severities are among INFO/WARN/ERROR
and whose codes never collide with a severity literal (the claim's assumption),
summarize_issues maps each severity label to its number of occurrences and each
code to its number of occurrences; the three severity counts sum to the list's
length, and the per-code counts over the distinct codes sum to the same
total. -/
theorem summarize_counts (issues : List Issue)
    (hsev : ∀ i ∈ issues, i.severity ∈ (["INFO", "WARN", "ERROR"] : List String))
    (hcode : ∀ i ∈ issues, i.code ∉ (["INFO", "WARN", "ERROR"] : List String)) :
    (∀ s ∈ (["INFO", "WARN", "ERROR"] : List String),
      summarize_issues issues s = issues.countP (fun i => i.severity == s))
    ∧ (∀ c, c ∉ (["INFO", "WARN", "ERROR"] : List String) →
      summarize_issues issues c = issues.countP (fun i => i.code == c))
    ∧ summarize_issues issues "INFO" + summarize_issues issues "WARN"
        + summarize_issues issues "ERROR" = issues.length
    ∧ ((issues.map (fun i => i.code)).dedup.map (fun c => summarize_issues issues c)).sum
        = issues.length := by
  have hA : ∀ s ∈ (["INFO", "WARN", "ERROR"] : List String),
      summarize_issues issues s = issues.countP (fun i => i.severity == s) := by
    intro s hs
    rw [summarize_apply]
    have hz : issues.countP (fun i => i.code == s) = 0 := by
      rw [List.countP_eq_zero]
      intro i hi
      have hni := hcode i hi
      simp only [beq_iff_eq]
      exact fun heq => hni (heq ▸ hs)
    omega
  have hB : ∀ c, c ∉ (["INFO", "WARN", "ERROR"] : List String) →
      summarize_issues issues c = issues.countP (fun i => i.code == c) := by
    intro c hc
    rw [summarize_apply]
    have hz : issues.countP (fun i => i.severity == c) = 0 := by
      rw [List.countP_eq_zero]
      intro i hi
      simp only [beq_iff_eq]
      exact fun heq => hc (heq ▸ hsev i hi)
    omega
  refine ⟨hA, hB, ?_, ?_⟩
  · rw [hA "INFO" (by simp), hA "WARN" (by simp), hA "ERROR" (by simp)]
    exact countP_sev_three issues hsev
  · have hmap : (issues.map (fun i => i.code)).dedup.map (fun c => summarize_issues issues c)
        = (issues.map (fun i => i.code)).dedup.map
            (fun c => (issues.map (fun i => i.code)).count c) := by
      apply List.map_congr_left
      intro c hc
      have hcl : c ∈ issues.map (fun i => i.code) := List.mem_dedup.mp hc
      obtain ⟨i0, hi0, rfl⟩ := List.mem_map.mp hcl
      rw [hB _ (hcode i0 hi0)]
      rw [show (issues.map (fun i => i.code)).count i0.code
          = (issues.map (fun i => i.code)).countP (fun x => x == i0.code) from rfl,
        List.countP_map]
      rfl
    rw [hmap, sum_dedup_count]
    simp

/-- C9 witness: the 2-ERROR/3-WARN scenario of the spec, with realistic codes. -/
theorem summarize_counts_witness :
    (∀ s ∈ (["INFO", "WARN", "ERROR"] : List String),
      summarize_issues
          [⟨"", "MISSING_FIELD", "ERROR", "", "", ""⟩,
           ⟨"", "FILE_NOT_FOUND", "ERROR", "", "", ""⟩,
           ⟨"", "TS_MISSING", "WARN", "", "", ""⟩,
           ⟨"", "DUP_PATH", "WARN", "", "", ""⟩,
           ⟨"", "SIZE_MISMATCH", "WARN", "", "", ""⟩] s
        = ([⟨"", "MISSING_FIELD", "ERROR", "", "", ""⟩,
            ⟨"", "FILE_NOT_FOUND", "ERROR", "", "", ""⟩,
            ⟨"", "TS_MISSING", "WARN", "", "", ""⟩,
            ⟨"", "DUP_PATH", "WARN", "", "", ""⟩,
            ⟨"", "SIZE_MISMATCH", "WARN", "", "", ""⟩] : List Issue).countP
            (fun i => i.severity == s))
    ∧ (∀ c, c ∉ (["INFO", "WARN", "ERROR"] : List String) →
      summarize_issues
          [⟨"", "MISSING_FIELD", "ERROR", "", "", ""⟩,
           ⟨"", "FILE_NOT_FOUND", "ERROR", "", "", ""⟩,
           ⟨"", "TS_MISSING", "WARN", "", "", ""⟩,
           ⟨"", "DUP_PATH", "WARN", "", "", ""⟩,
           ⟨"", "SIZE_MISMATCH", "WARN", "", "", ""⟩] c
        = ([⟨"", "MISSING_FIELD", "ERROR", "", "", ""⟩,
            ⟨"", "FILE_NOT_FOUND", "ERROR", "", "", ""⟩,
            ⟨"", "TS_MISSING", "WARN", "", "", ""⟩,
            ⟨"", "DUP_PATH", "WARN", "", "", ""⟩,
            ⟨"", "SIZE_MISMATCH", "WARN", "", "", ""⟩] : List Issue).countP
            (fun i => i.code == c))
    ∧ summarize_issues
          [⟨"", "MISSING_FIELD", "ERROR", "", "", ""⟩,
           ⟨"", "FILE_NOT_FOUND", "ERROR", "", "", ""⟩,
           ⟨"", "TS_MISSING", "WARN", "", "", ""⟩,
           ⟨"", "DUP_PATH", "WARN", "", "", ""⟩,
           ⟨"", "SIZE_MISMATCH", "WARN", "", "", ""⟩] "INFO"
        + summarize_issues
          [⟨"", "MISSING_FIELD", "ERROR", "", "", ""⟩,
           ⟨"", "FILE_NOT_FOUND", "ERROR", "", "", ""⟩,
           ⟨"", "TS_MISSING", "WARN", "", "", ""⟩,
           ⟨"", "DUP_PATH", "WARN", "", "", ""⟩,
           ⟨"", "SIZE_MISMATCH", "WARN", "", "", ""⟩] "WARN"
        + summarize_issues
          [⟨"", "MISSING_FIELD", "ERROR", "", "", ""⟩,
           ⟨"", "FILE_NOT_FOUND", "ERROR", "", "", ""⟩,
           ⟨"", "TS_MISSING", "WARN", "", "", ""⟩,
           ⟨"", "DUP_PATH", "WARN", "", "", ""⟩,
           ⟨"", "SIZE_MISMATCH", "WARN", "", "", ""⟩] "ERROR"
        = ([⟨"", "MISSING_FIELD", "ERROR", "", "", ""⟩,
            ⟨"", "FILE_NOT_FOUND", "ERROR", "", "", ""⟩,
            ⟨"", "TS_MISSING", "WARN", "", "", ""⟩,
            ⟨"", "DUP_PATH", "WARN", "", "", ""⟩,
            ⟨"", "SIZE_MISMATCH", "WARN", "", "", ""⟩] : List Issue).length
    ∧ ((([⟨"", "MISSING_FIELD", "ERROR", "", "", ""⟩,
          ⟨"", "FILE_NOT_FOUND", "ERROR", "", "", ""⟩,
          ⟨"", "TS_MISSING", "WARN", "", "", ""⟩,
          ⟨"", "DUP_PATH", "WARN", "", "", ""⟩,
          ⟨"", "SIZE_MISMATCH", "WARN", "", "", ""⟩] : List Issue).map
          (fun i => i.code)).dedup.map
          (fun c => summarize_issues
            [⟨"", "MISSING_FIELD", "ERROR", "", "", ""⟩,
             ⟨"", "FILE_NOT_FOUND", "ERROR", "", "", ""⟩,
             ⟨"", "TS_MISSING", "WARN", "", "", ""⟩,
             ⟨"", "DUP_PATH", "WARN", "", "", ""⟩,
             ⟨"", "SIZE_MISMATCH", "WARN", "", "", ""⟩] c)).sum
        = ([⟨"", "MISSING_FIELD", "ERROR", "", "", ""⟩,
            ⟨"", "FILE_NOT_FOUND", "ERROR", "", "", ""⟩,
            ⟨"", "TS_MISSING", "WARN", "", "", ""⟩,
            ⟨"", "DUP_PATH", "WARN", "", "", ""⟩,
            ⟨"", "SIZE_MISMATCH", "WARN", "", "", ""⟩] : List Issue).length :=
  summarize_counts
    [⟨"", "MISSING_FIELD", "ERROR", "", "", ""⟩,
     ⟨"", "FILE_NOT_FOUND", "ERROR", "", "", ""⟩,
     ⟨"", "TS_MISSING", "WARN", "", "", ""⟩,
     ⟨"", "DUP_PATH", "WARN", "", "", ""⟩,
     ⟨"", "SIZE_MISMATCH", "WARN", "", "", ""⟩]
    (by decide) (by decide)
